import Mathlib

/-!
Shallow embedding of `src/prediction.py` (F1 race-winner prediction script).

Numbers that the Python code handles as floats are modelled as exact
rationals (`ℚ`); a pandas `NaN`/`NaT` ("undefined") value is modelled as
`none` of an `Option`. A pandas `DataFrame` of rows is modelled as a
`List` of structures, and the Python `dict` `driver_scores` (insertion
ordered, unique keys) as an association list `List (String × DriverScore)`.
An exception raised by the external `fastf1` provider is modelled by the
`Except.error` case of the fetched input.

One deliberate representation choice: `pandas.Series.std()` returns the
sample standard deviation `√variance`, which is irrational in general.
The embedding stores the sample variance (the square of the source's
value) in the `consistency` field produced by the session summarizer, so
every definition stays computable over `ℚ`.  Definedness (`std` is `NaN`
iff fewer than 2 laps, hence `none` here exactly then) and nonnegativity
(`√v ≥ 0 ↔ v ≥ 0` for the values that occur) are unaffected by the square.
The aggregator `calculate_prediction_score` receives consistency values as
opaque input numbers, so its embedding is exact.
-/

namespace F1Pred

/-- One raw lap record from `session.laps`: the driver abbreviation and the
lap duration in seconds (`none` models a `NaT` `LapTime`). -/
structure LapRecord where
  driver : String
  lapTime : Option ℚ
deriving Repr, DecidableEq

/-- One summary row produced by `get_session_data` for one driver in one
session (and also the row shape of the `practice_data` DataFrames consumed
by `calculate_prediction_score`). `consistency` stores the sample
variance; the source stores its square root (see module docstring). -/
structure SessionRow where
  driver : String
  fastestLap : Option ℚ
  averageLap : Option ℚ
  consistency : Option ℚ
  totalLaps : ℕ
  session : String
deriving Repr, DecidableEq

/-- Embeds `valid_laps = lap_times[lap_times['LapTime'].notna()]`, projected to the
(driver, duration) pairs the summarizer uses. -/
def validLaps (laps : List LapRecord) : List (String × ℚ) :=
  laps.filterMap (fun r => r.lapTime.map (fun t => (r.driver, t)))

/-- Embeds `pandas.Series.unique()`: the distinct values in order of first
appearance, realized by a structurally recursive accumulator pass. -/
def uniqueFirstAux (seen : List String) : List String → List String
  | [] => []
  | d :: ds =>
      if d ∈ seen then uniqueFirstAux seen ds
      else d :: uniqueFirstAux (d :: seen) ds

/-- Embeds `valid_laps['Driver'].unique()` as a function of the value list. -/
def uniqueFirst (l : List String) : List String :=
  uniqueFirstAux [] l

/-- The lap durations of driver `d` among the valid laps, in order:
`valid_laps[valid_laps['Driver'] == driver]['LapTime']`. -/
def driverTimes (laps : List (String × ℚ)) (d : String) : List ℚ :=
  (laps.filter (fun p => p.1 = d)).map Prod.snd

/-- Embeds `Series.min()` on a nonempty series (the `[]` case never arises where
this is used; it is given the junk value 0). -/
def listMin : List ℚ → ℚ
  | [] => 0
  | x :: xs => xs.foldl min x

/-- Embeds `Series.mean()`: the arithmetic mean. -/
def listMean (l : List ℚ) : ℚ :=
  l.sum / l.length

/-- Embeds `Series.std()` squared: the sample variance
`Σ (x − mean)² / (n − 1)` (pandas default `ddof = 1`). -/
def sampleVariance (l : List ℚ) : ℚ :=
  (l.map (fun x => (x - listMean l) ^ 2)).sum / ((l.length : ℚ) - 1)

/-- The summary row `get_session_data` appends for one driver, from that
driver's valid lap durations. `Series.std()` of fewer than 2 values is
`NaN`, which the source's `pd.notna` guard turns into `None`. -/
def driverSummary (sessionName : String) (d : String) (times : List ℚ) :
    SessionRow :=
  { driver := d
    fastestLap := some (listMin times)
    averageLap := some (listMean times)
    consistency := if 2 ≤ times.length then some (sampleVariance times) else none
    totalLaps := times.length
    session := sessionName }

/-- The driver loop of `get_session_data` (lines 24–41): one row per
distinct driver of the valid laps. -/
def summarizeSession (laps : List LapRecord) (sessionName : String) :
    List SessionRow :=
  (uniqueFirst ((validLaps laps).map Prod.fst)).map
    (fun d => driverSummary sessionName d (driverTimes (validLaps laps) d))

/-- Embeds `get_session_data`: the `try` body summarizes the fetched laps; the
`except` clause prints a diagnostic and returns an empty DataFrame, so any
provider exception yields `[]`. -/
def get_session_data (fetched : Except String (List LapRecord))
    (sessionName : String) : List SessionRow :=
  match fetched with
  | .error _ => []
  | .ok laps => summarizeSession laps sessionName

/-- One row of `qualifying.results` as consumed by
`get_qualifying_positions`: abbreviation, position, and the three
(nullable) stage times. -/
structure QualResultRow where
  abbreviation : String
  position : ℚ
  q1 : Option ℚ
  q2 : Option ℚ
  q3 : Option ℚ
deriving Repr, DecidableEq

/-- One output row of `get_qualifying_positions`. -/
structure QualifyingRow where
  driver : String
  qualifyingPosition : ℚ
  q1Time : Option ℚ
  q2Time : Option ℚ
  q3Time : Option ℚ
deriving Repr, DecidableEq

/-- Embeds `get_qualifying_positions`: the `try` body maps each result row to a
qualifying row; the `except` clause returns an empty DataFrame. -/
def get_qualifying_positions (fetched : Except String (List QualResultRow)) :
    List QualifyingRow :=
  match fetched with
  | .error _ => []
  | .ok rows =>
      rows.map (fun r =>
        { driver := r.abbreviation
          qualifyingPosition := r.position
          q1Time := r.q1
          q2Time := r.q2
          q3Time := r.q3 })

/-- The session weight table of `calculate_prediction_score` (line 84) with
its `.get(row['Session'], 0.2)` fallback (line 92):
`{'FP1': 0.15, 'FP2': 0.25, 'FP3': 0.35, 'Sprint': 0.25}`, default `0.2`. -/
def session_weights (s : String) : ℚ :=
  if s = "FP1" then 15/100
  else if s = "FP2" then 25/100
  else if s = "FP3" then 35/100
  else if s = "Sprint" then 25/100
  else 2/10

/-- One value of the `driver_scores` dict. `totalLaps` is the ℕ sum of the
`TotalLaps` column. -/
structure DriverScore where
  avgFastestLap : ℚ
  consistency : ℚ
  totalLaps : ℕ
  practiceScore : ℚ
deriving Repr, DecidableEq

/-- Embeds `driver_practice = all_practice[all_practice['Driver'] == driver]`. -/
def driverRows (allPractice : List SessionRow) (d : String) :
    List SessionRow :=
  allPractice.filter (fun r => r.driver = d)

/-- The loop of lines 89–92: the `(FastestLap, weight)` pairs of the rows
whose `FastestLap` is defined, pairing the Python lists `fastest_laps` and
`weights`. -/
def fastestLapsAndWeights (rows : List SessionRow) : List (ℚ × ℚ) :=
  rows.filterMap (fun r =>
    r.fastestLap.map (fun t => (t, session_weights r.session)))

/-- Embeds `np.average(values, weights=w) = Σ vᵢ·wᵢ / Σ wᵢ`, on the paired list. -/
def npAverage (tw : List (ℚ × ℚ)) : ℚ :=
  (tw.map (fun p => p.1 * p.2)).sum / (tw.map Prod.snd).sum

/-- The defined `Consistency` values of a driver's practice rows
(line 97's list comprehension with its `pd.notna` filter). -/
def definedConsistencies (rows : List SessionRow) : List ℚ :=
  rows.filterMap (fun r => r.consistency)

/-- Lines 94–107: the `driver_scores[driver]` entry built from one driver's
practice rows, or `none` when `fastest_laps` is empty (no profile). -/
def mkProfile (rows : List SessionRow) : Option DriverScore :=
  let tw := fastestLapsAndWeights rows
  if tw.isEmpty then none
  else
    some
      { avgFastestLap := npAverage tw
        consistency :=
          let cs := definedConsistencies rows
          if cs.isEmpty then 10 else listMean cs
        totalLaps := (rows.map SessionRow.totalLaps).sum
        practiceScore := 0 }

/-- Step 1 of `calculate_prediction_score` (lines 82–107): the
`driver_scores` dict after the per-driver profile loop, as an association
list keyed in driver first-appearance order. -/
def driverProfiles (allPractice : List SessionRow) :
    List (String × DriverScore) :=
  (uniqueFirst (allPractice.map SessionRow.driver)).filterMap
    (fun d => (mkProfile (driverRows allPractice d)).map (fun p => (d, p)))

/-- Embeds `fastest_overall = min(...)` over the profile values (line 110). -/
def fastestOverall (profiles : List (String × DriverScore)) : ℚ :=
  listMin (profiles.map (fun p => p.2.avgFastestLap))

/-- Lines 112–117: the scoring pass over one profile. The Python truth
test `if data['Consistency']` is false exactly for the number 0. -/
def scoreProfile (fo : ℚ) (p : DriverScore) : DriverScore :=
  let lapTimeScore := (p.avgFastestLap - fo) * 1000
  let consistencyScore := if p.consistency ≠ 0 then p.consistency * 100 else 500
  let reliabilityScore := min ((p.totalLaps : ℚ) / 50) 1
  { p with
    practiceScore := lapTimeScore + consistencyScore - reliabilityScore * 100 }

/-- Steps 1–2 (lines 82–117): `driver_scores` after the
`if driver_scores:` scoring pass. -/
def driver_scores (allPractice : List SessionRow) :
    List (String × DriverScore) :=
  if (driverProfiles allPractice).isEmpty then driverProfiles allPractice
  else
    (driverProfiles allPractice).map
      (fun p =>
        (p.1, scoreProfile (fastestOverall (driverProfiles allPractice)) p.2))

/-- One row of the returned prediction DataFrame (lines 130–137). -/
structure FinalPrediction where
  driver : String
  qualifyingPosition : ℚ
  practiceScore : ℚ
  finalScore : ℚ
  avgFastestLap : ℚ
  consistency : ℚ
deriving Repr, DecidableEq

/-- The qualifying loop of lines 121–137: for each qualifying row whose
driver has a profile, the final-score row with
`final_score = pos · 0.6 + practice_score · 0.4 / 100`. -/
def finalScoresList (scores : List (String × DriverScore))
    (qualifyingData : List QualifyingRow) : List FinalPrediction :=
  qualifyingData.filterMap (fun q =>
    (scores.lookup q.driver).map (fun ds =>
      { driver := q.driver
        qualifyingPosition := q.qualifyingPosition
        practiceScore := ds.practiceScore
        finalScore :=
          q.qualifyingPosition * (6/10) + ds.practiceScore * (4/10) / 100
        avgFastestLap := ds.avgFastestLap
        consistency := ds.consistency }))

/-- The comparison key of `.sort_values('FinalScore')`. -/
def scoreLE (a b : FinalPrediction) : Prop :=
  a.finalScore ≤ b.finalScore

instance : DecidableRel scoreLE := fun a b =>
  inferInstanceAs (Decidable (a.finalScore ≤ b.finalScore))

instance : IsTotal FinalPrediction scoreLE :=
  ⟨fun a b => le_total a.finalScore b.finalScore⟩

instance : IsTrans FinalPrediction scoreLE :=
  ⟨fun _ _ _ hab hbc => le_trans hab hbc⟩

/-- Embeds `calculate_prediction_score` (lines 74–139), error paths
included. `pd.concat(practice_data)` on the empty list raises
`ValueError: No objects to concatenate`; and when `final_scores == []`,
`pd.DataFrame([])` has no columns, so line 139's
`.sort_values('FinalScore')` raises `KeyError` — the function never
returns an empty ranking. Both raises are modelled as `Except.error`
(the payload is a diagnostic only: for a nonempty practice list whose
frames are all empty the source already raises `KeyError: 'Driver'` at
line 82, but such an input also has `final_scores == []`, so the
raise-versus-return boundary modelled here is exact). On the non-raising
path the rows are sorted ascending by `FinalScore` (pandas' quicksort is
modelled by insertion sort: both return an ascending permutation, which
is all the contract fixes for ties). -/
def calculate_prediction_score (practiceData : List (List SessionRow))
    (qualifyingData : List QualifyingRow) :
    Except String (List FinalPrediction) :=
  if practiceData.isEmpty then
    .error "ValueError: No objects to concatenate"
  else if (finalScoresList (driver_scores practiceData.flatten)
      qualifyingData).isEmpty then
    .error "KeyError: FinalScore"
  else
    .ok (List.insertionSort scoreLE
      (finalScoresList (driver_scores practiceData.flatten) qualifyingData))

/-- The outcome of the reporting tail of `predict_race_winner`
(lines 204–241): `ok none` models the `Unable to generate predictions`
early return, `ok (some r)` the normal return of the ranking, and
`error` an uncaught `IndexError` from `predictions.iloc[i]`. -/
def predict_race_winner_report (predictions : List FinalPrediction) :
    Except String (Option (List FinalPrediction)) :=
  if predictions.isEmpty then .ok none
  else
    match predictions[1]? with
    | none => .error "iloc index 1 is out of bounds"
    | some _ =>
        match predictions[2]? with
        | none => .error "iloc index 2 is out of bounds"
        | some _ => .ok (some predictions)

/-! ### Helper lemmas -/

theorem mem_uniqueFirstAux {x : String} :
    ∀ (l seen : List String),
      x ∈ uniqueFirstAux seen l ↔ x ∈ l ∧ x ∉ seen := by
  intro l
  induction l with
  | nil => intro seen; simp [uniqueFirstAux]
  | cons d ds ih =>
      intro seen
      by_cases hd : d ∈ seen
      · rw [show uniqueFirstAux seen (d :: ds) = uniqueFirstAux seen ds from
            by simp [uniqueFirstAux, if_pos hd], ih]
        constructor
        · rintro ⟨hx, hns⟩
          exact ⟨List.mem_cons_of_mem _ hx, hns⟩
        · rintro ⟨hx, hns⟩
          rcases List.mem_cons.mp hx with rfl | hx
          · exact absurd hd hns
          · exact ⟨hx, hns⟩
      · rw [show uniqueFirstAux seen (d :: ds) = d :: uniqueFirstAux (d :: seen) ds
            from by simp [uniqueFirstAux, if_neg hd]]
        constructor
        · intro hmem
          rcases List.mem_cons.mp hmem with rfl | hmem
          · exact ⟨List.mem_cons_self _ _, hd⟩
          · have hx := (ih (d :: seen)).mp hmem
            exact ⟨List.mem_cons_of_mem _ hx.1,
              fun hc => hx.2 (List.mem_cons_of_mem _ hc)⟩
        · rintro ⟨hx, hns⟩
          rcases List.mem_cons.mp hx with rfl | hx
          · exact List.mem_cons_self _ _
          · by_cases hxd : x = d
            · subst hxd; exact List.mem_cons_self _ _
            · exact List.mem_cons_of_mem _ ((ih (d :: seen)).mpr
                ⟨hx, fun hc => (List.mem_cons.mp hc).elim hxd hns⟩)

theorem mem_uniqueFirst {x : String} {l : List String} :
    x ∈ uniqueFirst l ↔ x ∈ l := by
  simp [uniqueFirst, mem_uniqueFirstAux]

theorem nodup_uniqueFirstAux :
    ∀ (l seen : List String), (uniqueFirstAux seen l).Nodup := by
  intro l
  induction l with
  | nil => intro seen; simp [uniqueFirstAux]
  | cons d ds ih =>
      intro seen
      by_cases hd : d ∈ seen
      · simpa [uniqueFirstAux, if_pos hd] using ih seen
      · rw [show uniqueFirstAux seen (d :: ds) = d :: uniqueFirstAux (d :: seen) ds
            from by simp [uniqueFirstAux, if_neg hd]]
        refine List.nodup_cons.mpr ⟨?_, ih (d :: seen)⟩
        intro hmem
        exact ((mem_uniqueFirstAux ds (d :: seen)).mp hmem).2
          (List.mem_cons_self _ _)

theorem nodup_uniqueFirst (l : List String) : (uniqueFirst l).Nodup :=
  nodup_uniqueFirstAux l []

theorem foldl_min_le_init (xs : List ℚ) : ∀ a : ℚ, xs.foldl min a ≤ a := by
  induction xs with
  | nil => intro a; simp
  | cons x xs ih =>
      intro a
      calc (x :: xs).foldl min a = xs.foldl min (min a x) := rfl
        _ ≤ min a x := ih (min a x)
        _ ≤ a := min_le_left _ _

theorem foldl_min_le_mem {xs : List ℚ} {x : ℚ} (hx : x ∈ xs) :
    ∀ a : ℚ, xs.foldl min a ≤ x := by
  induction xs with
  | nil => cases hx
  | cons y ys ih =>
      intro a
      rcases List.mem_cons.mp hx with rfl | hx
      · calc (x :: ys).foldl min a = ys.foldl min (min a x) := rfl
          _ ≤ min a x := foldl_min_le_init ys (min a x)
          _ ≤ x := min_le_right _ _
      · exact ih hx (min a y)

/-- The minimum is a lower bound of every member of the list. -/
theorem listMin_le_mem {l : List ℚ} {x : ℚ} (hx : x ∈ l) : listMin l ≤ x := by
  cases l with
  | nil => cases hx
  | cons y ys =>
      rcases List.mem_cons.mp hx with rfl | hx
      · exact foldl_min_le_init ys x
      · exact foldl_min_le_mem hx y

/-- The bound `min ≤ mean` on a nonempty list of rationals. -/
theorem listMin_le_listMean {l : List ℚ} (hl : l ≠ []) :
    listMin l ≤ listMean l := by
  have hlen : 0 < l.length := List.length_pos.mpr hl
  have hlenQ : (0 : ℚ) < (l.length : ℚ) := by exact_mod_cast hlen
  have hbound : (l.length : ℚ) * listMin l ≤ l.sum := by
    simpa [nsmul_eq_mul] using
      List.card_nsmul_le_sum l (listMin l) (fun x hx => listMin_le_mem hx)
  rw [listMean, le_div_iff₀ hlenQ, mul_comm]
  exact hbound

/-- The sample variance is nonnegative (numerator is a sum of squares,
denominator is positive when at least two laps contribute). -/
theorem sampleVariance_nonneg {l : List ℚ} (hl : 2 ≤ l.length) :
    0 ≤ sampleVariance l := by
  apply div_nonneg
  · apply List.sum_nonneg
    intro x hx
    rcases List.mem_map.mp hx with ⟨y, _, rfl⟩
    positivity
  · have h2 : (2 : ℚ) ≤ (l.length : ℚ) := by exact_mod_cast hl
    linarith

theorem driverTimes_ne_nil_iff (valid : List (String × ℚ)) (d : String) :
    driverTimes valid d ≠ [] ↔ d ∈ valid.map Prod.fst := by
  unfold driverTimes
  rw [ne_eq, List.map_eq_nil_iff, List.filter_eq_nil_iff]
  push_neg
  constructor
  · rintro ⟨p, hp, hd⟩
    exact List.mem_map.mpr ⟨p, hp, by simpa using hd⟩
  · intro hd
    rcases List.mem_map.mp hd with ⟨p, hp, rfl⟩
    exact ⟨p, hp, by simp⟩

theorem lookup_map_value (f : DriverScore → DriverScore) :
    ∀ (l : List (String × DriverScore)) (d : String),
      (l.map (fun p => (p.1, f p.2))).lookup d = (l.lookup d).map f := by
  intro l
  induction l with
  | nil => intro d; rfl
  | cons p ps ih =>
      intro d
      by_cases hd : d = p.1
      · simp [List.lookup, hd]
      · have hbeq : (d == p.1) = false := beq_eq_false_iff_ne.mpr hd
        simp [List.lookup, hbeq, ih]

theorem lookup_filterMap_profiles (g : String → Option DriverScore) :
    ∀ ds : List String, ∀ d : String, ds.Nodup →
      (ds.filterMap (fun x => (g x).map (fun p => (x, p)))).lookup d
        = if d ∈ ds then g d else none := by
  intro ds
  induction ds with
  | nil => intro d _; simp
  | cons x xs ih =>
      intro d hnd
      rcases List.nodup_cons.mp hnd with ⟨hx_nin, hxs_nd⟩
      rcases hgx : g x with _ | p
      · rw [List.filterMap_cons_none (by simp [hgx]), ih d hxs_nd]
        by_cases hdx : d = x
        · subst hdx
          simp [hx_nin, hgx]
        · simp [List.mem_cons, hdx]
      · rw [show List.filterMap (fun y => (g y).map (fun q => (y, q))) (x :: xs)
            = (x, p) :: List.filterMap (fun y => (g y).map (fun q => (y, q))) xs
            from by rw [List.filterMap_cons, hgx]; rfl]
        by_cases hdx : d = x
        · subst hdx
          simp [List.lookup, hgx]
        · have hbeq : (d == x) = false := beq_eq_false_iff_ne.mpr hdx
          simp only [List.lookup, hbeq]
          rw [ih d hxs_nd]
          simp [List.mem_cons, hdx]

theorem lookup_driverProfiles (ap : List SessionRow) (d : String) :
    (driverProfiles ap).lookup d = mkProfile (driverRows ap d) := by
  unfold driverProfiles
  rw [lookup_filterMap_profiles _ _ d (nodup_uniqueFirst _)]
  by_cases hd : d ∈ uniqueFirst (ap.map SessionRow.driver)
  · rw [if_pos hd]
  · rw [if_neg hd]
    have hrows : driverRows ap d = [] := by
      rw [driverRows, List.filter_eq_nil_iff]
      intro r hr hcontra
      exact hd (mem_uniqueFirst.mpr
        (List.mem_map.mpr ⟨r, hr, by simpa using hcontra⟩))
    rw [hrows]
    rfl

theorem fastestLapsAndWeights_eq_nil_iff (rows : List SessionRow) :
    fastestLapsAndWeights rows = [] ↔ ∀ r ∈ rows, r.fastestLap = none := by
  rw [fastestLapsAndWeights, List.filterMap_eq_nil_iff]
  constructor
  · intro h r hr
    simpa [Option.map_eq_none'] using h r hr
  · intro h r hr
    simp [h r hr]

theorem mkProfile_eq_none_iff (rows : List SessionRow) :
    mkProfile rows = none ↔ ∀ r ∈ rows, r.fastestLap = none := by
  unfold mkProfile
  by_cases h : (fastestLapsAndWeights rows).isEmpty
  · rw [if_pos h]
    simp only [true_iff]
    exact (fastestLapsAndWeights_eq_nil_iff rows).mp (List.isEmpty_iff.mp h)
  · rw [if_neg h]
    constructor
    · intro hc
      exact Option.noConfusion hc
    · intro hall
      exact absurd
        (List.isEmpty_iff.mpr ((fastestLapsAndWeights_eq_nil_iff rows).mpr hall))
        h

theorem lookup_driver_scores (ap : List SessionRow) (d : String) :
    (driver_scores ap).lookup d
      = (mkProfile (driverRows ap d)).map
          (scoreProfile (fastestOverall (driverProfiles ap))) := by
  unfold driver_scores
  by_cases h : (driverProfiles ap).isEmpty
  · rw [if_pos h]
    rw [List.isEmpty_iff] at h
    have hlk := lookup_driverProfiles ap d
    rw [h] at hlk ⊢
    rw [← hlk]
    rfl
  · rw [if_neg h, lookup_map_value, lookup_driverProfiles]

theorem scoreProfile_avgFastestLap (fo : ℚ) (p : DriverScore) :
    (scoreProfile fo p).avgFastestLap = p.avgFastestLap := rfl

theorem scoreProfile_consistency (fo : ℚ) (p : DriverScore) :
    (scoreProfile fo p).consistency = p.consistency := rfl

theorem scoreProfile_totalLaps (fo : ℚ) (p : DriverScore) :
    (scoreProfile fo p).totalLaps = p.totalLaps := rfl

theorem scoreProfile_practiceScore (fo : ℚ) (p : DriverScore) :
    (scoreProfile fo p).practiceScore
      = (p.avgFastestLap - fo) * 1000
        + (if p.consistency ≠ 0 then p.consistency * 100 else 500)
        - min ((p.totalLaps : ℚ) / 50) 1 * 100 := rfl

theorem mkProfile_eq_some_iff (rows : List SessionRow) (p : DriverScore) :
    mkProfile rows = some p ↔
      fastestLapsAndWeights rows ≠ []
      ∧ p = { avgFastestLap := npAverage (fastestLapsAndWeights rows)
              consistency :=
                if (definedConsistencies rows).isEmpty then 10
                else listMean (definedConsistencies rows)
              totalLaps := (rows.map SessionRow.totalLaps).sum
              practiceScore := 0 } := by
  unfold mkProfile
  by_cases h : (fastestLapsAndWeights rows).isEmpty
  · rw [if_pos h]
    simp [List.isEmpty_iff.mp h]
  · rw [if_neg h]
    have hne : fastestLapsAndWeights rows ≠ [] :=
      fun hc => h (List.isEmpty_iff.mpr hc)
    constructor
    · intro hc
      exact ⟨hne, (Option.some_injective _ hc).symm⟩
    · rintro ⟨-, rfl⟩
      rfl

theorem fastestLaps_weighted_times_sum (rows : List SessionRow) :
    (fastestLapsAndWeights rows).map (fun p => p.1 * p.2)
      = rows.filterMap
          (fun r => r.fastestLap.map (fun t => t * session_weights r.session)) := by
  rw [fastestLapsAndWeights, List.map_filterMap]
  congr 1
  funext r
  cases r.fastestLap <;> simp

theorem fastestLaps_weights_sum (rows : List SessionRow) :
    (fastestLapsAndWeights rows).map Prod.snd
      = rows.filterMap
          (fun r => r.fastestLap.map (fun _ => session_weights r.session)) := by
  rw [fastestLapsAndWeights, List.map_filterMap]
  congr 1
  funext r
  cases r.fastestLap <;> simp

/-! ### Concrete example data (spec §8's three-driver example and friends),
used to instantiate the claim theorems at concrete inputs. -/

/-- Driver A of the spec's §8 example: fastest lap 90.0 s, consistency
0.2 s, 20 laps, single session FP1. -/
def exRowA : SessionRow :=
  { driver := "A", fastestLap := some 90, averageLap := some 90,
    consistency := some (2/10), totalLaps := 20, session := "FP1" }

/-- Driver B of the spec's §8 example. -/
def exRowB : SessionRow :=
  { driver := "B", fastestLap := some (905/10), averageLap := some (905/10),
    consistency := some (3/10), totalLaps := 20, session := "FP1" }

/-- Driver C of the spec's §8 example. -/
def exRowC : SessionRow :=
  { driver := "C", fastestLap := some 91, averageLap := some 91,
    consistency := some (1/10), totalLaps := 20, session := "FP1" }

/-- Qualifying A = P2, B = P1, C = P3 (spec §8 example). -/
def exQualA : QualifyingRow :=
  { driver := "A", qualifyingPosition := 2,
    q1Time := none, q2Time := none, q3Time := none }

def exQualB : QualifyingRow :=
  { driver := "B", qualifyingPosition := 1,
    q1Time := none, q2Time := none, q3Time := none }

def exQualC : QualifyingRow :=
  { driver := "C", qualifyingPosition := 3,
    q1Time := none, q2Time := none, q3Time := none }

/-- A qualifying row whose driver has no practice data at all. -/
def exQualZ : QualifyingRow :=
  { driver := "Z", qualifyingPosition := 1,
    q1Time := none, q2Time := none, q3Time := none }

/-- A single-driver practice row with exactly zero consistency, the
fastest (only) weighted average lap, and 50 total laps: the boundary
driver of spec §8's `-100` check. -/
def exRowZero : SessionRow :=
  { driver := "AAA", fastestLap := some 90, averageLap := some 90,
    consistency := some 0, totalLaps := 50, session := "FP1" }

/-- Concrete raw laps: driver X laps 90 s and 92 s, driver Y one `NaT`
lap and one 80 s lap. -/
def exLaps : List LapRecord :=
  [{ driver := "X", lapTime := some 90 }, { driver := "X", lapTime := some 92 },
   { driver := "Y", lapTime := none }, { driver := "Y", lapTime := some 80 }]

/-- The summary row `summarizeSession exLaps "FP1"` produces for X. -/
def exSummaryX : SessionRow :=
  { driver := "X", fastestLap := some 90, averageLap := some 91,
    consistency := some 2, totalLaps := 2, session := "FP1" }

/-- The ranking row the aggregator produces for driver A of the §8
example (final score 2·0.6 + (−20)·0.4/100 = 1.12 = 28/25). -/
def exPredA : FinalPrediction :=
  { driver := "A", qualifyingPosition := 2, practiceScore := -20,
    finalScore := 28/25, avgFastestLap := 90, consistency := 2/10 }

/-- The ranking row for driver B of the §8 example (score 2.56). -/
def exPredB : FinalPrediction :=
  { driver := "B", qualifyingPosition := 1, practiceScore := 490,
    finalScore := 64/25, avgFastestLap := 905/10, consistency := 3/10 }

/-- The ranking row for driver C of the §8 example (score 5.68). -/
def exPredC : FinalPrediction :=
  { driver := "C", qualifyingPosition := 3, practiceScore := 970,
    finalScore := 142/25, avgFastestLap := 91, consistency := 1/10 }

/-! ### Claim theorems -/

/-- Claim C9: whenever the external retrieval boundary raises (modelled as an
`Except.error` fetch result), both `get_session_data` and
`get_qualifying_positions` catch it at the call site and return an empty
result set; neither function can re-raise (their embedding is total). -/
theorem C9_provider_error_yields_empty (e : String) (sessionName : String) :
    get_session_data (Except.error e) sessionName = []
    ∧ get_qualifying_positions (Except.error e) = [] :=
  ⟨rfl, rfl⟩

/-- Claim C3 counterexample: the claim says any unrecognized session name
(such as a sprint name) gets weight 0.25, but the truly unrecognized name
"SQ" gets the `.get` fallback 0.2, and 0.2 ≠ 0.25. -/
theorem C3_counterexample :
    session_weights "SQ" = 2/10 ∧ (2 : ℚ)/10 ≠ 25/100 :=
  ⟨rfl, by norm_num⟩

/-- Claim C3 (amended): the weight table is FP1 → 0.15, FP2 → 0.25,
FP3 → 0.35, and the *recognized* name Sprint → 0.25; every session name
outside these four gets the fallback weight 0.2. -/
theorem C3_session_weight_table (s : String) :
    session_weights "FP1" = 15/100
    ∧ session_weights "FP2" = 25/100
    ∧ session_weights "FP3" = 35/100
    ∧ session_weights "Sprint" = 25/100
    ∧ (s ≠ "FP1" → s ≠ "FP2" → s ≠ "FP3" → s ≠ "Sprint" →
        session_weights s = 2/10) := by
  refine ⟨rfl, rfl, rfl, rfl, ?_⟩
  intro h1 h2 h3 h4
  simp [session_weights, h1, h2, h3, h4]

/-- Witness for the amended claim C3 at the unrecognized name "SQ". -/
theorem C3_session_weight_table_witness :
    ("SQ" : String) ≠ "FP1" ∧ session_weights "SQ" = 2/10 :=
  ⟨by decide,
   (C3_session_weight_table "SQ").2.2.2.2
     (by decide) (by decide) (by decide) (by decide)⟩

/-- Claim C10: the reporting tail of `predict_race_winner` returns the
ranking normally exactly when it holds at least 3 drivers; with exactly 1
or 2 drivers the unconditional `iloc[1]` / `iloc[2]` reads are
out of bounds and the ranking is not returned. -/
theorem C10_report_needs_three_rows (predictions : List FinalPrediction) :
    (predict_race_winner_report predictions = Except.ok (some predictions)
      ↔ 3 ≤ predictions.length)
    ∧ ((∃ msg, predict_race_winner_report predictions = Except.error msg)
      ↔ predictions.length = 1 ∨ predictions.length = 2) := by
  rcases predictions with _ | ⟨a, _ | ⟨b, _ | ⟨c, rest⟩⟩⟩
  · simp [predict_race_winner_report]
  · simp [predict_race_winner_report]
  · simp [predict_race_winner_report]
  · constructor
    · simp only [predict_race_winner_report]
      simp [List.length_cons]
    · simp [predict_race_winner_report]

/-- Claim C1: whenever the aggregator returns a ranking, every row of it
satisfies `final_score = grid_position · 0.6 + practice_score · 0.4 / 100`,
and the ranking is sorted ascending by `final_score` (so the first row —
rank 1 — has the lowest score). -/
theorem C1_final_score_formula_and_sorted
    (practiceData : List (List SessionRow))
    (qualifyingData : List QualifyingRow)
    (ranking : List FinalPrediction)
    (hok : calculate_prediction_score practiceData qualifyingData
      = Except.ok ranking) :
    (∀ p ∈ ranking,
        p.finalScore
          = p.qualifyingPosition * (6/10) + p.practiceScore * (4/10) / 100)
    ∧ List.Pairwise (fun a b => a.finalScore ≤ b.finalScore) ranking := by
  rw [calculate_prediction_score] at hok
  by_cases h1 : practiceData.isEmpty
  · rw [if_pos h1] at hok
    exact absurd hok (fun hc => Except.noConfusion hc)
  · rw [if_neg h1] at hok
    by_cases h2 : (finalScoresList (driver_scores practiceData.flatten)
        qualifyingData).isEmpty
    · rw [if_pos h2] at hok
      exact absurd hok (fun hc => Except.noConfusion hc)
    · rw [if_neg h2] at hok
      injection hok with hok
      subst hok
      constructor
      · intro p hp
        have hp' := (List.mem_insertionSort scoreLE).mp hp
        rcases List.mem_filterMap.mp hp' with ⟨q, hq, hmap⟩
        rcases Option.map_eq_some'.mp hmap with ⟨ds, hds, rfl⟩
        rfl
      · exact List.sorted_insertionSort scoreLE
          (finalScoresList (driver_scores practiceData.flatten)
            qualifyingData)

/-- Witness for claim C1 at the spec §8 three-driver example: driver A's row
satisfies the formula, and the full output is sorted ascending. -/
theorem C1_witness :
    calculate_prediction_score [[exRowA, exRowB, exRowC]]
        [exQualA, exQualB, exQualC]
      = Except.ok [exPredA, exPredB, exPredC]
    ∧ exPredA.finalScore = 2 * (6/10) + (-20) * (4/10) / 100
    ∧ List.Pairwise (fun a b => a.finalScore ≤ b.finalScore)
        [exPredA, exPredB, exPredC] := by
  have hok : calculate_prediction_score [[exRowA, exRowB, exRowC]]
      [exQualA, exQualB, exQualC]
      = Except.ok [exPredA, exPredB, exPredC] := by
    with_unfolding_all rfl
  have h := C1_final_score_formula_and_sorted [[exRowA, exRowB, exRowC]]
    [exQualA, exQualB, exQualC] [exPredA, exPredB, exPredC] hok
  exact ⟨hok, h.1 exPredA (List.mem_cons_self _ _), h.2⟩

/-- Claim C5 (code bug): on the path that returns a ranking, the ranking
contains exactly the drivers present in both the practice-profile set and
the qualifying set; but in the very cases the claim reads on — empty
qualifying input, or no driver on both sides — `final_scores` is empty
and line 139's `pd.DataFrame([]).sort_values('FinalScore')` raises
`KeyError` (modelled as an error result), so the aggregator crashes
instead of yielding the empty ranking the claim and spec describe. -/
theorem C5_overlap_membership_and_crash
    (practiceData : List (List SessionRow))
    (qualifyingData : List QualifyingRow) :
    (∀ ranking,
      calculate_prediction_score practiceData qualifyingData
        = Except.ok ranking →
      ∀ d, (∃ p ∈ ranking, p.driver = d)
        ↔ ((∃ q ∈ qualifyingData, q.driver = d)
            ∧ (driver_scores practiceData.flatten).lookup d ≠ none))
    ∧ (practiceData ≠ [] →
        (∀ d, ¬((∃ q ∈ qualifyingData, q.driver = d)
            ∧ (driver_scores practiceData.flatten).lookup d ≠ none)) →
        ∃ e, calculate_prediction_score practiceData qualifyingData
          = Except.error e) := by
  have hmem : ∀ d,
      (∃ p ∈ finalScoresList (driver_scores practiceData.flatten)
          qualifyingData, p.driver = d)
      ↔ ((∃ q ∈ qualifyingData, q.driver = d)
          ∧ (driver_scores practiceData.flatten).lookup d ≠ none) := by
    intro d
    constructor
    · rintro ⟨p, hp, rfl⟩
      rcases List.mem_filterMap.mp hp with ⟨q, hq, hmap⟩
      rcases Option.map_eq_some'.mp hmap with ⟨ds, hds, rfl⟩
      refine ⟨⟨q, hq, rfl⟩, ?_⟩
      show (driver_scores practiceData.flatten).lookup q.driver ≠ none
      rw [hds]
      exact fun hc => Option.noConfusion hc
    · rintro ⟨⟨q, hq, rfl⟩, hlk⟩
      rcases Option.ne_none_iff_exists'.mp hlk with ⟨ds, hds⟩
      refine ⟨{ driver := q.driver,
                qualifyingPosition := q.qualifyingPosition,
                practiceScore := ds.practiceScore,
                finalScore := q.qualifyingPosition * (6/10)
                  + ds.practiceScore * (4/10) / 100,
                avgFastestLap := ds.avgFastestLap,
                consistency := ds.consistency }, ?_, rfl⟩
      refine List.mem_filterMap.mpr ⟨q, hq, ?_⟩
      rw [hds]
      rfl
  constructor
  · intro ranking hok d
    rw [calculate_prediction_score] at hok
    by_cases h1 : practiceData.isEmpty
    · rw [if_pos h1] at hok
      exact absurd hok (fun hc => Except.noConfusion hc)
    · rw [if_neg h1] at hok
      by_cases h2 : (finalScoresList (driver_scores practiceData.flatten)
          qualifyingData).isEmpty
      · rw [if_pos h2] at hok
        exact absurd hok (fun hc => Except.noConfusion hc)
      · rw [if_neg h2] at hok
        injection hok with hok
        subst hok
        constructor
        · rintro ⟨p, hp, hd⟩
          exact (hmem d).mp
            ⟨p, (List.mem_insertionSort scoreLE).mp hp, hd⟩
        · intro hr
          rcases (hmem d).mpr hr with ⟨p, hp, hd⟩
          exact ⟨p, (List.mem_insertionSort scoreLE).mpr hp, hd⟩
  · intro hne hnone
    have hempty : finalScoresList (driver_scores practiceData.flatten)
        qualifyingData = [] := by
      rcases hres : finalScoresList (driver_scores practiceData.flatten)
          qualifyingData with _ | ⟨p, rest⟩
      · rfl
      · exfalso
        apply hnone p.driver
        apply (hmem p.driver).mp
        exact ⟨p, by rw [hres]; exact List.mem_cons_self _ _, rfl⟩
    rw [calculate_prediction_score,
      if_neg (fun hc => hne (List.isEmpty_iff.mp hc)),
      if_pos (List.isEmpty_iff.mpr hempty)]
    exact ⟨"KeyError: FinalScore", rfl⟩

/-- Witness for claim C5 at concrete failing inputs: with qualifying-only
driver Z (no overlap) the aggregator errors; with empty qualifying and a
nonempty practice frame it errors with the line-139 `KeyError`; and on
the §8 example's ok path, driver A is on both sides and in the ranking. -/
theorem C5_overlap_membership_and_crash_witness :
    (∃ e, calculate_prediction_score [[exRowA, exRowB, exRowC]] [exQualZ]
      = Except.error e)
    ∧ calculate_prediction_score [[exRowZero]] []
      = Except.error "KeyError: FinalScore"
    ∧ ((∃ p ∈ [exPredA, exPredB, exPredC], p.driver = "A")
        ↔ ((∃ q ∈ [exQualA, exQualB, exQualC], q.driver = "A")
            ∧ (driver_scores
                ([[exRowA, exRowB, exRowC]] : List (List SessionRow)).flatten).lookup "A"
              ≠ none)) := by
  refine ⟨?_, by with_unfolding_all rfl, ?_⟩
  · apply (C5_overlap_membership_and_crash [[exRowA, exRowB, exRowC]]
      [exQualZ]).2
    · exact fun hc => List.noConfusion hc
    · rintro d ⟨⟨q, hq, rfl⟩, hlk⟩
      apply hlk
      rw [List.mem_singleton.mp hq]
      with_unfolding_all rfl
  · exact (C5_overlap_membership_and_crash [[exRowA, exRowB, exRowC]]
      [exQualA, exQualB, exQualC]).1 [exPredA, exPredB, exPredC]
      (by with_unfolding_all rfl) "A"

/-- Claim C2: a driver has a profile (an entry of `driver_scores`) iff some
practice row of theirs has a defined fastest lap, and the profile's
weighted average equals `Σ (time · weight) / Σ weight` over exactly the
rows with a defined fastest lap. -/
theorem C2_weighted_average (ap : List SessionRow) (d : String) :
    ((driver_scores ap).lookup d ≠ none
      ↔ ∃ r ∈ ap, r.driver = d ∧ r.fastestLap ≠ none)
    ∧ ∀ p, (driver_scores ap).lookup d = some p →
        p.avgFastestLap
          = ((driverRows ap d).filterMap
              (fun r => r.fastestLap.map
                (fun t => t * session_weights r.session))).sum
            / ((driverRows ap d).filterMap
              (fun r => r.fastestLap.map
                (fun _ => session_weights r.session))).sum := by
  constructor
  · constructor
    · intro h
      have hmk : mkProfile (driverRows ap d) ≠ none := by
        rw [lookup_driver_scores] at h
        intro hc
        rw [hc] at h
        exact h rfl
      have hnall : ¬ ∀ r ∈ driverRows ap d, r.fastestLap = none :=
        fun hall => hmk ((mkProfile_eq_none_iff _).mpr hall)
      push_neg at hnall
      rcases hnall with ⟨r, hr, hfl⟩
      have hr' := List.mem_filter.mp hr
      exact ⟨r, hr'.1, by simpa using hr'.2, hfl⟩
    · rintro ⟨r, hr, hdr, hfl⟩
      rw [lookup_driver_scores, ne_eq, Option.map_eq_none']
      intro hc
      exact hfl ((mkProfile_eq_none_iff _).mp hc r
        (List.mem_filter.mpr ⟨hr, by simp [hdr]⟩))
  · intro p hp
    rw [lookup_driver_scores] at hp
    rcases Option.map_eq_some'.mp hp with ⟨p₀, hmk, rfl⟩
    rcases (mkProfile_eq_some_iff _ _).mp hmk with ⟨-, rfl⟩
    rw [scoreProfile_avgFastestLap]
    show npAverage (fastestLapsAndWeights (driverRows ap d)) = _
    rw [npAverage, fastestLaps_weighted_times_sum, fastestLaps_weights_sum]

/-- Witness for claim C2 at the spec §8 example: driver A has a row with a
defined fastest lap, hence a profile, and its weighted average satisfies
the `Σ (time·weight)/Σ weight` formula. -/
theorem C2_witness :
    (∃ r ∈ [exRowA, exRowB, exRowC], r.driver = "A" ∧ r.fastestLap ≠ none)
    ∧ (driver_scores [exRowA, exRowB, exRowC]).lookup "A" ≠ none
    ∧ DriverScore.avgFastestLap
        { avgFastestLap := 90, consistency := 2/10, totalLaps := 20,
          practiceScore := -20 }
        = ((driverRows [exRowA, exRowB, exRowC] "A").filterMap
            (fun r => r.fastestLap.map
              (fun t => t * session_weights r.session))).sum
          / ((driverRows [exRowA, exRowB, exRowC] "A").filterMap
            (fun r => r.fastestLap.map
              (fun _ => session_weights r.session))).sum := by
  have hex : ∃ r ∈ [exRowA, exRowB, exRowC], r.driver = "A"
      ∧ r.fastestLap ≠ none :=
    ⟨exRowA, List.mem_cons_self _ _, rfl, by simp [exRowA]⟩
  exact ⟨hex,
    (C2_weighted_average [exRowA, exRowB, exRowC] "A").1.mpr hex,
    (C2_weighted_average [exRowA, exRowB, exRowC] "A").2
      { avgFastestLap := 90, consistency := 2/10, totalLaps := 20,
        practiceScore := -20 }
      (by with_unfolding_all rfl)⟩

/-- Claim C4 counterexample: the claim says the falsy-consistency branch can
never trigger, so the driver holding `fastest_overall` with zero
consistency and 50 laps would score `0 + 0 − 100 = −100`; the code gives
that driver `0 + 500 − 100 = 400` (Python's `if data['Consistency']` is
false at 0.0). -/
theorem C4_counterexample :
    (driver_scores [exRowZero]).lookup "AAA"
      = some { avgFastestLap := 90, consistency := 0, totalLaps := 50,
               practiceScore := 400 }
    ∧ ((400 : ℚ) ≠ -100) := by
  constructor
  · with_unfolding_all rfl
  · norm_num

/-- Claim C4 (amended): every profile's practice score uses
`consistency × 100` only when the consistency is nonzero and the fixed 500
when it is zero (the falsy branch does trigger at zero); consequently the
driver with `fastest_overall`, zero consistency and ≥ 50 laps scores
`0 + 500 − 100 = 400`. -/
theorem C4_practice_score (ap : List SessionRow) (d : String)
    (p : DriverScore) (hp : (driver_scores ap).lookup d = some p) :
    p.practiceScore
      = (p.avgFastestLap - fastestOverall (driverProfiles ap)) * 1000
        + (if p.consistency ≠ 0 then p.consistency * 100 else 500)
        - min ((p.totalLaps : ℚ) / 50) 1 * 100
    ∧ (p.avgFastestLap = fastestOverall (driverProfiles ap) →
        p.consistency = 0 → 50 ≤ p.totalLaps → p.practiceScore = 400) := by
  rw [lookup_driver_scores] at hp
  rcases Option.map_eq_some'.mp hp with ⟨p₀, hmk, rfl⟩
  have hform : (scoreProfile (fastestOverall (driverProfiles ap)) p₀).practiceScore
      = ((scoreProfile (fastestOverall (driverProfiles ap)) p₀).avgFastestLap
          - fastestOverall (driverProfiles ap)) * 1000
        + (if (scoreProfile (fastestOverall (driverProfiles ap)) p₀).consistency ≠ 0
           then (scoreProfile (fastestOverall (driverProfiles ap)) p₀).consistency * 100
           else 500)
        - min (((scoreProfile (fastestOverall (driverProfiles ap)) p₀).totalLaps : ℚ) / 50) 1
            * 100 := by
    rw [scoreProfile_practiceScore, scoreProfile_avgFastestLap,
      scoreProfile_consistency, scoreProfile_totalLaps]
  refine ⟨hform, ?_⟩
  intro hfo hcons hlaps
  rw [hform, hfo, hcons]
  have hmin : min (((scoreProfile (fastestOverall (driverProfiles ap)) p₀).totalLaps : ℚ) / 50) 1
      = 1 := by
    apply min_eq_right
    rw [le_div_iff₀ (by norm_num : (0:ℚ) < 50)]
    have : (50 : ℚ) ≤ ((scoreProfile (fastestOverall (driverProfiles ap)) p₀).totalLaps : ℚ) := by
      exact_mod_cast hlaps
    linarith
  rw [hmin]
  norm_num

/-- Witness for the amended claim C4: the single zero-consistency driver
"AAA" holds `fastest_overall`, has exactly 50 laps, and scores 400. -/
theorem C4_practice_score_witness :
    (driver_scores [exRowZero]).lookup "AAA"
      = some { avgFastestLap := 90, consistency := 0, totalLaps := 50,
               practiceScore := 400 }
    ∧ DriverScore.practiceScore
        { avgFastestLap := 90, consistency := 0, totalLaps := 50,
          practiceScore := 400 } = 400 := by
  have hlk : (driver_scores [exRowZero]).lookup "AAA"
      = some { avgFastestLap := 90, consistency := 0, totalLaps := 50,
               practiceScore := 400 } := by
    with_unfolding_all rfl
  refine ⟨hlk, ?_⟩
  exact (C4_practice_score [exRowZero] "AAA"
      { avgFastestLap := 90, consistency := 0, totalLaps := 50,
        practiceScore := 400 } hlk).2
    (by with_unfolding_all rfl) rfl (le_refl 50)

/-- The summary row `summarizeSession exLaps "FP1"` produces for Y (one
valid lap, so no consistency value). -/
def exSummaryY : SessionRow :=
  { driver := "Y", fastestLap := some 80, averageLap := some 80,
    consistency := none, totalLaps := 1, session := "FP1" }

/-- Claim C6: a profile's average consistency is the plain arithmetic mean
of the defined per-session consistency values, or the fixed 10.0 penalty
default when no session supplied one. -/
theorem C6_average_consistency (ap : List SessionRow) (d : String)
    (p : DriverScore) (hp : (driver_scores ap).lookup d = some p) :
    p.consistency
      = if definedConsistencies (driverRows ap d) = [] then 10
        else (definedConsistencies (driverRows ap d)).sum
              / ((definedConsistencies (driverRows ap d)).length : ℚ) := by
  rw [lookup_driver_scores] at hp
  rcases Option.map_eq_some'.mp hp with ⟨p₀, hmk, rfl⟩
  rcases (mkProfile_eq_some_iff _ _).mp hmk with ⟨-, rfl⟩
  rw [scoreProfile_consistency]
  show (if (definedConsistencies (driverRows ap d)).isEmpty then (10 : ℚ)
        else listMean (definedConsistencies (driverRows ap d))) = _
  by_cases h : definedConsistencies (driverRows ap d) = []
  · rw [if_pos (List.isEmpty_iff.mpr h), if_pos h]
  · rw [if_neg (fun hc => h (List.isEmpty_iff.mp hc)), if_neg h]
    rfl

/-- Witness for claim C6: driver A's profile has consistency 0.2, the mean
of its (single) defined session consistency. -/
theorem C6_witness :
    (driver_scores [exRowA, exRowB, exRowC]).lookup "A"
      = some { avgFastestLap := 90, consistency := 2/10, totalLaps := 20,
               practiceScore := -20 }
    ∧ DriverScore.consistency
        { avgFastestLap := 90, consistency := 2/10, totalLaps := 20,
          practiceScore := -20 }
        = if definedConsistencies (driverRows [exRowA, exRowB, exRowC] "A") = []
          then 10
          else (definedConsistencies (driverRows [exRowA, exRowB, exRowC] "A")).sum
                / ((definedConsistencies
                    (driverRows [exRowA, exRowB, exRowC] "A")).length : ℚ) := by
  have hlk : (driver_scores [exRowA, exRowB, exRowC]).lookup "A"
      = some { avgFastestLap := 90, consistency := 2/10, totalLaps := 20,
               practiceScore := -20 } := by
    with_unfolding_all rfl
  exact ⟨hlk, C6_average_consistency [exRowA, exRowB, exRowC] "A" _ hlk⟩

/-- Claim C7: the session summarizer outputs exactly one row per driver with
at least one valid lap (none for drivers with zero valid laps), holding
the minimum duration, the arithmetic mean, the sample-deviation statistic
(undefined iff exactly one valid lap, nonnegative when defined), and the
count of the driver's valid laps. -/
theorem C7_summarizer_rows (laps : List LapRecord) (sname : String) :
    ((summarizeSession laps sname).map SessionRow.driver).Nodup
    ∧ (∀ d, (∃ row ∈ summarizeSession laps sname, row.driver = d)
        ↔ driverTimes (validLaps laps) d ≠ [])
    ∧ ∀ row ∈ summarizeSession laps sname,
        row.fastestLap
            = some (listMin (driverTimes (validLaps laps) row.driver))
        ∧ row.averageLap
            = some (listMean (driverTimes (validLaps laps) row.driver))
        ∧ row.totalLaps = (driverTimes (validLaps laps) row.driver).length
        ∧ (row.consistency = none ↔ row.totalLaps = 1)
        ∧ (∀ c, row.consistency = some c → 0 ≤ c) := by
  refine ⟨?_, ?_, ?_⟩
  · rw [summarizeSession, List.map_map]
    have hcomp : (SessionRow.driver ∘ fun d =>
        driverSummary sname d (driverTimes (validLaps laps) d)) = id := by
      funext d
      rfl
    rw [hcomp, List.map_id]
    exact nodup_uniqueFirst _
  · intro d
    constructor
    · rintro ⟨row, hrow, rfl⟩
      rw [summarizeSession] at hrow
      rcases List.mem_map.mp hrow with ⟨d', hd', rfl⟩
      exact (driverTimes_ne_nil_iff _ _).mpr (mem_uniqueFirst.mp hd')
    · intro hne
      have hd : d ∈ uniqueFirst ((validLaps laps).map Prod.fst) :=
        mem_uniqueFirst.mpr ((driverTimes_ne_nil_iff _ _).mp hne)
      exact ⟨driverSummary sname d (driverTimes (validLaps laps) d),
        List.mem_map.mpr ⟨d, hd, rfl⟩, rfl⟩
  · intro row hrow
    rw [summarizeSession] at hrow
    rcases List.mem_map.mp hrow with ⟨d, hd, rfl⟩
    have hne : driverTimes (validLaps laps) d ≠ [] :=
      (driverTimes_ne_nil_iff _ _).mpr (mem_uniqueFirst.mp hd)
    have hlen : 1 ≤ (driverTimes (validLaps laps) d).length :=
      Nat.one_le_iff_ne_zero.mpr
        (fun hc => hne (List.length_eq_zero.mp hc))
    refine ⟨rfl, rfl, rfl, ?_, ?_⟩
    · show (if 2 ≤ (driverTimes (validLaps laps) d).length
            then some (sampleVariance (driverTimes (validLaps laps) d))
            else none) = none
          ↔ (driverTimes (validLaps laps) d).length = 1
      by_cases h2 : 2 ≤ (driverTimes (validLaps laps) d).length
      · rw [if_pos h2]
        constructor
        · intro hc
          exact Option.noConfusion hc
        · intro h1
          exact absurd h1 (by omega)
      · rw [if_neg h2]
        constructor
        · intro _
          omega
        · intro _
          rfl
    · intro c hc
      have hc' : (if 2 ≤ (driverTimes (validLaps laps) d).length
          then some (sampleVariance (driverTimes (validLaps laps) d))
          else none) = some c := hc
      by_cases h2 : 2 ≤ (driverTimes (validLaps laps) d).length
      · rw [if_pos h2] at hc'
        rw [← Option.some_injective _ hc']
        exact sampleVariance_nonneg h2
      · rw [if_neg h2] at hc'
        exact absurd hc' (fun h => Option.noConfusion h)

/-- Witness for claim C7 on the concrete laps `exLaps`: X's summary row is
produced, driver names are distinct, X's consistency (2 laps) is defined,
and its value 2 is nonnegative. -/
theorem C7_witness :
    (exSummaryX ∈ summarizeSession exLaps "FP1")
    ∧ ((summarizeSession exLaps "FP1").map SessionRow.driver).Nodup
    ∧ (exSummaryX.consistency = none ↔ exSummaryX.totalLaps = 1)
    ∧ (0 : ℚ) ≤ 2 := by
  have hmem : exSummaryX ∈ summarizeSession exLaps "FP1" := by
    rw [show summarizeSession exLaps "FP1" = [exSummaryX, exSummaryY]
        from by with_unfolding_all rfl]
    exact List.mem_cons_self _ _
  refine ⟨hmem, (C7_summarizer_rows exLaps "FP1").1, ?_, ?_⟩
  · exact ((C7_summarizer_rows exLaps "FP1").2.2 exSummaryX hmem).2.2.2.1
  · exact ((C7_summarizer_rows exLaps "FP1").2.2 exSummaryX hmem).2.2.2.2 2 rfl

/-- Claim C8: every summary row has a defined fastest and average lap with
`fastest ≤ average`, and the average equals the arithmetic mean of the
driver's included (valid) durations. -/
theorem C8_fastest_le_average (laps : List LapRecord) (sname : String)
    (row : SessionRow) (hrow : row ∈ summarizeSession laps sname) :
    ∃ f a, row.fastestLap = some f ∧ row.averageLap = some a ∧ f ≤ a
      ∧ a = (driverTimes (validLaps laps) row.driver).sum
            / ((driverTimes (validLaps laps) row.driver).length : ℚ) := by
  rw [summarizeSession] at hrow
  rcases List.mem_map.mp hrow with ⟨d, hd, rfl⟩
  have hne : driverTimes (validLaps laps) d ≠ [] :=
    (driverTimes_ne_nil_iff _ _).mpr (mem_uniqueFirst.mp hd)
  exact ⟨listMin (driverTimes (validLaps laps) d),
    listMean (driverTimes (validLaps laps) d), rfl, rfl,
    listMin_le_listMean hne, rfl⟩

/-- Witness for claim C8 at the concrete row for driver X (laps 90 s and
92 s: fastest 90 ≤ average 91). -/
theorem C8_witness :
    ∃ f a, exSummaryX.fastestLap = some f ∧ exSummaryX.averageLap = some a
      ∧ f ≤ a
      ∧ a = (driverTimes (validLaps exLaps) exSummaryX.driver).sum
            / ((driverTimes (validLaps exLaps) exSummaryX.driver).length : ℚ) := by
  apply C8_fastest_le_average exLaps "FP1" exSummaryX
  rw [show summarizeSession exLaps "FP1" = [exSummaryX, exSummaryY]
      from by with_unfolding_all rfl]
  exact List.mem_cons_self _ _

end F1Pred
